import Mathlib

/-!
Verification development for the peerstore repository.

Shallow embedding of:
* the server-side envelope handlers in `src/file/handlers.go`
  (`GetFileHandler`, `PostFileHandler`, `DeleteFileHandler`,
  `GetPublicKeyHandler`, `PostPublicKeyHandler`);
* the client sync code in `src/unnamed/part_000`
  (`Synchronize` reconciliation loop, client `PostFile`).

Bytes are modelled as `List Nat`, store keys as `Nat`, the blob store as a
function `Nat → Option (List Nat)`, and the process-wide Lamport clock as a
`Nat` threaded through each handler.
-/

namespace Peerstore

/-! ## Protocol data model (package `protocol`, package `models`) -/

/-- Response / request status codes (`protocol.Success`, `protocol.Error`). -/
inductive Status where
  | success
  | error
deriving DecidableEq, Repr

/-- A shared-with record in a request header (`protocol.SharedSecret`):
a 20-byte identifier together with a wrapped session key. -/
structure SharedSecret where
  id : List Nat
  secret : List Nat
deriving DecidableEq, Repr

/-- Request/response header (`protocol.Header`); only the fields the embedded
handlers and client flows read are carried. `pubKey` is abstract. -/
structure Header where
  fromId : List Nat
  key : Nat
  clock : Nat
  secret : List Nat
  sharedWith : List SharedSecret
  resourceName : String
  logFlag : Bool
  dataLength : Nat
  pubKey : Nat
deriving DecidableEq, Repr

/-- Go zero value of `protocol.Header`: all fields at their zero values. -/
def Header.zero : Header :=
  { fromId := [], key := 0, clock := 0, secret := [], sharedWith := [],
    resourceName := "", logFlag := false, dataLength := 0, pubKey := 0 }

/-- A request (`protocol.Request`): a header plus a payload. -/
structure Request where
  header : Header
  data : List Nat
deriving DecidableEq, Repr

/-- A response (`protocol.Response`): header, status and payload. Only the
`Clock` and `Secret` header fields are ever set by the handlers, so the
response header is restricted to those two fields. -/
structure Response where
  clock : Nat
  secret : List Nat
  status : Status
  data : List Nat
deriving DecidableEq, Repr

/-- The response literal `protocol.Response\x7bStatus: protocol.Error\x7d`
returned on every handler error path: all other fields are Go zero values. -/
def errorResponse : Response :=
  { clock := 0, secret := [], status := Status.error, data := [] }

/-- Modelled from the spec: `models.IncrementClock` (package `models` is not
under `src/`; only its callers are). Spec 3: "Updated on every send/receive:
`clock := max(clock, peer_clock) + 1`". The returned value is both stored in
the process clock and used in response headers. -/
def incrementClock (clock peerClock : Nat) : Nat :=
  max clock peerClock + 1

/-- Server-side state: the process-wide Lamport clock and the blob store
(`file.Get` / `file.Post` / `file.Delete` over the data path). -/
structure ServerState where
  clock : Nat
  store : Nat → Option (List Nat)

/-- Full-replace write of the blob store (`file.Post`). -/
def updateStore (st : Nat → Option (List Nat)) (k : Nat) (v : List Nat) :
    Nat → Option (List Nat) :=
  fun x => if x = k then some v else st x

/-- Removal from the blob store (`file.Delete`). -/
def removeStore (st : Nat → Option (List Nat)) (k : Nat) :
    Nat → Option (List Nat) :=
  fun x => if x = k then none else st x

/-! ## Envelope parsing (`src/file/handlers.go`) -/

/-- An owner-table record (`file.idSecret`): 20-byte identifier plus a
wrapped session key of `sessionKeyLen = 256` bytes. -/
structure idSecret where
  id : List Nat
  secret : List Nat
deriving DecidableEq, Repr

/-- The owner-record read loop shared by `GetFileHandler`, `PostFileHandler`
and `DeleteFileHandler`: read `count` records of 20 id bytes followed by 256
secret bytes; a short read (`n != 20` or `n != sessionKeyLen`) is an error.
Returns the parsed records together with the remaining bytes. -/
def readOwnerRecords : Nat → List Nat → Option (List idSecret × List Nat)
  | 0, rest => some ([], rest)
  | Nat.succ n, rest =>
    if 20 ≤ rest.length then
      let idSlice := rest.take 20
      let r1 := rest.drop 20
      if 256 ≤ r1.length then
        let secretSlice := r1.take 256
        match readOwnerRecords n (r1.drop 256) with
        | some (os, data) => some (idSecret.mk idSlice secretSlice :: os, data)
        | none => none
      else none
    else none

/-- Envelope parse: the first byte is the owner count (a read of one byte
fails on an empty blob), followed by that many owner records; the remainder
is the ciphertext. -/
def parseEnvelope (blob : List Nat) : Option (List idSecret × List Nat) :=
  match blob with
  | [] => none
  | c :: rest => readOwnerRecords c rest

/-- The authorization scan of `GetFileHandler` / `PostFileHandler` /
`DeleteFileHandler`: iterate over all parsed records without breaking,
setting `found` and overwriting `response.Header.Secret` on every record
whose id equals the requester id. `none` models `found = false`. -/
def authScan (owners : List idSecret) (fromId : List Nat) : Option (List Nat) :=
  owners.foldl (fun acc pair => if pair.id = fromId then some pair.secret else acc) none

/-! ## Envelope serialization (`PostFileHandler` header building) -/

/-- Byte serialization of the shared-with list, as appended by the Go loops
`for _, shareWith := range r.Header.SharedWith`. -/
def sharedWithBytes (sharedWith : List SharedSecret) (init : List Nat) : List Nat :=
  sharedWith.foldl (fun acc sw => acc ++ sw.id ++ sw.secret) init

/-- Byte serialization of parsed owner records, as appended by the Go loop
`for _, pair := range idSecrets`. -/
def ownerBytes (owners : List idSecret) (init : List Nat) : List Nat :=
  owners.foldl (fun acc pair => acc ++ pair.id ++ pair.secret) init

/-- The header built by `PostFileHandler` when no envelope exists:
`byte(1+len(SharedWith))`, then the requester id and secret, then the
shared-with records in order. The Go `byte(...)` conversion truncates
modulo 256. -/
def newEnvelopeHeader (fromId fileSecret : List Nat)
    (sharedWith : List SharedSecret) : List Nat :=
  sharedWithBytes sharedWith (((1 + sharedWith.length) % 256 :: fromId) ++ fileSecret)

/-- The header built by `PostFileHandler` when an envelope exists and the
requester is authorized: `byte(len(idSecrets)+len(SharedWith))`, the existing
records, then the shared-with records, all appended in order. -/
def updatedEnvelopeHeader (owners : List idSecret)
    (sharedWith : List SharedSecret) : List Nat :=
  sharedWithBytes sharedWith
    (ownerBytes owners [(owners.length + sharedWith.length) % 256])

/-! ## Server handlers (`src/file/handlers.go`) -/

/-- `file.GetFileHandler`: read the blob, parse owner count and records, scan
for the requester; on success return the (last) matching wrapped key in the
header secret and the remaining ciphertext as data. The handler never calls
`models.IncrementClock`, and its responses never set a clock. -/
def getFileHandler (s : ServerState) (r : Request) : ServerState × Response :=
  (s,
    match s.store r.header.key with
    | none => errorResponse
    | some blob =>
      match parseEnvelope blob with
      | none => errorResponse
      | some (owners, data) =>
        match authScan owners r.header.fromId with
        | none => errorResponse
        | some sec => { clock := 0, secret := sec, status := Status.success, data := data })

/-- `file.PostFileHandler`: `models.IncrementClock` runs on every request
(before any branch returns). If the blob is absent, a fresh envelope is
written from the request header and data; if present, it is parsed, the
requester must appear in the owner table (otherwise `Error` with no write),
and the rewritten envelope appends the shared-with records. -/
def postFileHandler (s : ServerState) (r : Request) : ServerState × Response :=
  let clock1 := incrementClock s.clock r.header.clock
  let s1 : ServerState := { s with clock := clock1 }
  match s.store r.header.key with
  | none =>
    let header := newEnvelopeHeader r.header.fromId r.header.secret r.header.sharedWith
    ({ s1 with store := updateStore s.store r.header.key (header ++ r.data) },
     { clock := clock1, secret := [], status := Status.success, data := [] })
  | some blob =>
    match parseEnvelope blob with
    | none => (s1, errorResponse)
    | some (owners, _) =>
      match authScan owners r.header.fromId with
      | none => (s1, errorResponse)
      | some sec =>
        let header := updatedEnvelopeHeader owners r.header.sharedWith
        ({ s1 with store := updateStore s.store r.header.key (header ++ r.data) },
         { clock := clock1, secret := sec, status := Status.success, data := [] })

/-- `file.DeleteFileHandler`: read and parse the envelope (parse failures
return before the clock is touched), then `models.IncrementClock`, then the
authorization scan; on success the blob is deleted. -/
def deleteFileHandler (s : ServerState) (r : Request) : ServerState × Response :=
  match s.store r.header.key with
  | none => (s, errorResponse)
  | some blob =>
    match parseEnvelope blob with
    | none => (s, errorResponse)
    | some (owners, _) =>
      let clock1 := incrementClock s.clock r.header.clock
      let s1 : ServerState := { s with clock := clock1 }
      match authScan owners r.header.fromId with
      | none => (s1, errorResponse)
      | some sec =>
        ({ s1 with store := removeStore s.store r.header.key },
         { clock := clock1, secret := sec, status := Status.success, data := [] })

/-- `file.GetPublicKeyHandler`: `models.IncrementClock` first, then a plain
blob read; the success response carries the updated clock and the blob. -/
def getPublicKeyHandler (s : ServerState) (r : Request) : ServerState × Response :=
  let clock1 := incrementClock s.clock r.header.clock
  let s1 : ServerState := { s with clock := clock1 }
  match s.store r.header.key with
  | none => (s1, errorResponse)
  | some blob =>
    (s1, { clock := clock1, secret := [], status := Status.success, data := blob })

/-- `file.PostPublicKeyHandler`: `models.IncrementClock` first, then a plain
blob write of the request data. -/
def postPublicKeyHandler (s : ServerState) (r : Request) : ServerState × Response :=
  let clock1 := incrementClock s.clock r.header.clock
  ({ clock := clock1, store := updateStore s.store r.header.key r.data },
   { clock := clock1, secret := [], status := Status.success, data := [] })

/-! ## Transaction log model (package `models`, used by `src/unnamed/part_000`) -/

/-- Transaction-log operation kind (`models.UpdateOperation`,
`models.DeleteOperation`); the spec's closed enumeration. -/
inductive Operation where
  | update
  | delete
deriving DecidableEq, Repr

/-- `models.TransactionEntry`: operation, client id, Lamport timestamp. -/
structure TransactionEntry where
  operation : Operation
  clientID : List Nat
  timestamp : Nat
deriving DecidableEq, Repr

/-- `models.TransactionEntity`: per-path entry list with resource metadata. -/
structure TransactionEntity where
  resourceName : String
  resourceID : Nat
  entries : List TransactionEntry
deriving DecidableEq, Repr

/-! ## Synchronize reconciliation (`Synchronize`, src/unnamed/part_000) -/

/-- The last-entry selection of `Synchronize`:
`lastEntry := v.Entries[0]` followed by
`for i := range v.Entries \x7b if v.Entries[i].Timestamp >= lastEntry.Timestamp ...`.
`none` models the Go index-out-of-range panic on an empty entries slice. -/
def lastEntryOf (entries : List TransactionEntry) : Option TransactionEntry :=
  match entries with
  | [] => none
  | e0 :: _ =>
    some (entries.foldl
      (fun lastEntry x => if lastEntry.timestamp ≤ x.timestamp then x else lastEntry) e0)

/-- The per-path action taken by the reconciliation loop of `Synchronize`. -/
inductive SyncAction where
  | download
  | removeLocal
  | noOp
  | deleteRemote
  | post
deriving DecidableEq, Repr

/-- One iteration of the `for k, v := range tl` reconciliation loop of
`Synchronize` (src/unnamed/part_000): `v` is the remote-log entity for a
path and `oldEntity` the prior-log entity for the same path (`none` when the
path is absent from the prior log). The remote last entry is read before the
prior-log membership check, exactly as in the source; `none` models a panic
on an empty entries slice. -/
def synchronizeEntityAction (oldEntity : Option TransactionEntity)
    (v : TransactionEntity) : Option SyncAction :=
  match lastEntryOf v.entries with
  | none => none
  | some lastEntry =>
    match oldEntity with
    | none => some SyncAction.download
    | some oldEnt =>
      match lastEntryOf oldEnt.entries with
      | none => none
      | some oldLastEntry =>
        if oldLastEntry.timestamp < lastEntry.timestamp then
          if lastEntry.operation = Operation.delete then some SyncAction.removeLocal
          else some SyncAction.download
        else if oldLastEntry.timestamp = lastEntry.timestamp then some SyncAction.noOp
        else
          if oldLastEntry.operation = Operation.delete then some SyncAction.deleteRemote
          else some SyncAction.post

/-! Spec-side description of the last-entry selection, for the refinement
comparison with the source's `lastEntryOf`. -/

/-- Maximum timestamp over an entry list (zero for the empty list). -/
def maxTimestamp (entries : List TransactionEntry) : Nat :=
  entries.foldl (fun m x => max m x.timestamp) 0

/-- Last-entry selection as the spec words it: "entry in `entity.entries`
with maximum timestamp (ties: ... the source iterates and prefers `>=`,
i.e., later-in-list on ties)" — the last entry attaining the maximum
timestamp. -/
def specLastEntry (entries : List TransactionEntry) : Option TransactionEntry :=
  (entries.filter (fun x => x.timestamp = maxTimestamp entries)).getLast?

/-! ## Client `PostFile` (src/unnamed/part_000, sync loop upload) -/

/-- The `PostFile` request built by the client sync loop
(src/unnamed/part_000 lines 824-837): `Data` is the raw byte content read
from the local file by `ioutil.ReadFile`, and the header sets `Key`, `From`,
`DataLength`, `ResourceName`, `Log` and `Clock`; `Secret` and `SharedWith`
keep their Go zero values. -/
def clientPostFileRequest (clientID : List Nat) (path : String) (key : Nat)
    (fileData : List Nat) (clock : Nat) (pubKey : Nat) : Request :=
  { header :=
      { Header.zero with
          key := key, fromId := clientID, dataLength := fileData.length,
          pubKey := pubKey, resourceName := path, logFlag := true,
          clock := clock },
    data := fileData }

/-! ## Helper lemmas -/

theorem foldl_max_eq (l : List TransactionEntry) :
    ∀ a : Nat, l.foldl (fun m x => max m x.timestamp) a = max a (maxTimestamp l) := by
  induction l with
  | nil => intro a; simp [maxTimestamp]
  | cons x xs ih =>
    intro a
    simp only [maxTimestamp, List.foldl_cons] at *
    rw [ih (max a x.timestamp), ih (max 0 x.timestamp)]
    omega

theorem foldl_last_timestamp (l : List TransactionEntry) :
    ∀ e0 : TransactionEntry,
      (l.foldl (fun lastEntry x =>
          if lastEntry.timestamp ≤ x.timestamp then x else lastEntry) e0).timestamp =
        max e0.timestamp (maxTimestamp l) := by
  induction l with
  | nil => intro e0; simp [maxTimestamp]
  | cons x xs ih =>
    intro e0
    simp only [List.foldl_cons]
    rw [ih]
    have hmax : maxTimestamp (x :: xs) = max (max 0 x.timestamp) (maxTimestamp xs) := by
      simp only [maxTimestamp, List.foldl_cons]
      exact foldl_max_eq xs (max 0 x.timestamp)
    rw [hmax]
    by_cases h : e0.timestamp ≤ x.timestamp
    · rw [if_pos h]; omega
    · rw [if_neg h]; omega

theorem lastEntryOf_eq_specLastEntry (l : List TransactionEntry) :
    lastEntryOf l = specLastEntry l := by
  induction l using List.reverseRecOn with
  | nil => rfl
  | append_singleton xs x ih =>
    cases xs with
    | nil =>
      simp [lastEntryOf, specLastEntry, maxTimestamp, List.foldl_cons]
    | cons e0 l' =>
      have hfold : lastEntryOf ((e0 :: l') ++ [x]) =
          some ((l' ++ [x]).foldl (fun lastEntry y =>
            if lastEntry.timestamp ≤ y.timestamp then y else lastEntry) e0) := by
        simp [lastEntryOf, List.foldl_cons]
      have hfold' : lastEntryOf (e0 :: l') =
          some (l'.foldl (fun lastEntry y =>
            if lastEntry.timestamp ≤ y.timestamp then y else lastEntry) e0) := by
        simp [lastEntryOf, List.foldl_cons]
      set r := l'.foldl (fun lastEntry y =>
        if lastEntry.timestamp ≤ y.timestamp then y else lastEntry) e0 with hr
      have hts : r.timestamp = maxTimestamp (e0 :: l') := by
        rw [hr, foldl_last_timestamp]
        have h1 : maxTimestamp (e0 :: l') = max (max 0 e0.timestamp) (maxTimestamp l') := by
          simp only [maxTimestamp, List.foldl_cons]
          rw [foldl_max_eq l' (max 0 e0.timestamp)]
          simp only [maxTimestamp]
        rw [h1]
        omega
      have hmax' : maxTimestamp ((e0 :: l') ++ [x]) =
          max (maxTimestamp (e0 :: l')) x.timestamp := by
        simp only [maxTimestamp, List.foldl_append, List.foldl_cons, List.foldl_nil]
      rw [hfold, List.foldl_append]
      simp only [List.foldl_cons, List.foldl_nil]
      by_cases h : r.timestamp ≤ x.timestamp
      · rw [if_pos h]
        have hM : maxTimestamp ((e0 :: l') ++ [x]) = x.timestamp := by omega
        unfold specLastEntry
        rw [hM, List.filter_append]
        have : List.filter (fun y => decide (y.timestamp = x.timestamp)) [x] = [x] := by
          simp
        rw [this, List.getLast?_append_cons]
        rfl
      · rw [if_neg h]
        have hM : maxTimestamp ((e0 :: l') ++ [x]) = maxTimestamp (e0 :: l') := by omega
        unfold specLastEntry
        rw [hM, List.filter_append]
        have hx : List.filter (fun y => decide (y.timestamp = maxTimestamp (e0 :: l'))) [x] = [] := by
          simp only [List.filter]
          have : ¬ (x.timestamp = maxTimestamp (e0 :: l')) := by omega
          simp [this]
        rw [hx, List.append_nil]
        rw [hfold'] at ih
        exact ih

theorem lastEntryOf_eq_none_iff (l : List TransactionEntry) :
    lastEntryOf l = none ↔ l = [] := by
  cases l <;> simp [lastEntryOf]

/-- C1: For every path present in both the fetched remote transaction log and
the prior log, `Synchronize` selects each log's last entry as the entry with
maximum timestamp (preferring the later-in-list entry on ties, via `>=`),
then: if the prior-log last timestamp is strictly less than the remote one it
downloads the file (removing the local file instead when the remote last
operation is Delete); if the timestamps are equal it does nothing; and if the
prior-log last timestamp is strictly greater it calls `PostFile` (or
`DeleteFile` when the prior last operation is Delete). -/
theorem c1_synchronize_last_writer_wins
    (v oldEnt : TransactionEntity) (remoteLast priorLast : TransactionEntry)
    (hremote : specLastEntry v.entries = some remoteLast)
    (hprior : specLastEntry oldEnt.entries = some priorLast) :
    synchronizeEntityAction (some oldEnt) v =
      some (if priorLast.timestamp < remoteLast.timestamp then
              (if remoteLast.operation = Operation.delete then SyncAction.removeLocal
               else SyncAction.download)
            else if priorLast.timestamp = remoteLast.timestamp then SyncAction.noOp
            else
              (if priorLast.operation = Operation.delete then SyncAction.deleteRemote
               else SyncAction.post)) := by
  rw [← lastEntryOf_eq_specLastEntry] at hremote hprior
  simp only [synchronizeEntityAction, hremote, hprior]
  split_ifs <;> rfl

/-- Witness for C1 at a concrete input: remote last timestamp 7 beats prior
last timestamp 3, remote last operation is Update, so the action is a
download. -/
theorem c1_witness :
    synchronizeEntityAction
      (some { resourceName := "r", resourceID := 0,
              entries := [{ operation := Operation.update, clientID := [], timestamp := 3 }] })
      { resourceName := "r", resourceID := 0,
        entries := [{ operation := Operation.update, clientID := [], timestamp := 3 },
                    { operation := Operation.update, clientID := [], timestamp := 7 }] } =
      some SyncAction.download := by
  have h := c1_synchronize_last_writer_wins
    { resourceName := "r", resourceID := 0,
      entries := [{ operation := Operation.update, clientID := [], timestamp := 3 },
                  { operation := Operation.update, clientID := [], timestamp := 7 }] }
    { resourceName := "r", resourceID := 0,
      entries := [{ operation := Operation.update, clientID := [], timestamp := 3 }] }
    { operation := Operation.update, clientID := [], timestamp := 7 }
    { operation := Operation.update, clientID := [], timestamp := 3 }
    (by decide) (by decide)
  exact h.trans (by decide)

/-- C9: the reconciliation loop of `Synchronize` reads index 0 of the entries
list of each remote-log entity before any other check, and of the prior-log
entity when the path is shared; it returns an action (rather than panicking,
modelled as `none`) exactly when every entity it encounters has a non-empty
entries list. -/
theorem c9_synchronize_head_access (oldEntity : Option TransactionEntity)
    (v : TransactionEntity) :
    ((synchronizeEntityAction oldEntity v).isSome = true ↔
      (v.entries ≠ [] ∧ ∀ e, oldEntity = some e → e.entries ≠ []))
    ∧ (v.entries = [] → synchronizeEntityAction oldEntity v = none) := by
  constructor
  · cases hv : lastEntryOf v.entries with
    | none =>
      rw [lastEntryOf_eq_none_iff] at hv
      simp [synchronizeEntityAction, lastEntryOf, hv]
    | some lastEntry =>
      have hv' : v.entries ≠ [] := by
        intro h
        rw [h] at hv
        exact Option.noConfusion hv
      cases oldEntity with
      | none => simp [synchronizeEntityAction, hv, hv']
      | some oldEnt =>
        cases ho : lastEntryOf oldEnt.entries with
        | none =>
          rw [lastEntryOf_eq_none_iff] at ho
          simp only [synchronizeEntityAction, hv, ho]
          simp only [show lastEntryOf ([] : List TransactionEntry) = none from rfl,
            Option.isSome_none, Bool.false_eq_true, false_iff, not_and]
          intro _ hcon
          exact absurd ho (hcon oldEnt rfl)
        | some oldLast =>
          have ho' : oldEnt.entries ≠ [] := by
            intro h
            rw [h] at ho
            exact Option.noConfusion ho
          simp only [synchronizeEntityAction, hv, ho]
          constructor
          · intro _
            refine ⟨hv', ?_⟩
            intro e he
            cases he
            exact ho'
          · intro _
            split_ifs <;> rfl
  · intro h
    have : lastEntryOf v.entries = none := (lastEntryOf_eq_none_iff _).mpr h
    simp [synchronizeEntityAction, this]

/-- Witness for C9 at a concrete input: both entity entry lists are
non-empty, so the reconciliation produces an action. -/
theorem c9_witness :
    (synchronizeEntityAction
      (some { resourceName := "p", resourceID := 1,
              entries := [{ operation := Operation.delete, clientID := [], timestamp := 2 }] })
      { resourceName := "p", resourceID := 1,
        entries := [{ operation := Operation.update, clientID := [], timestamp := 2 }] }).isSome
      = true := by
  refine ((c9_synchronize_head_access
    (some { resourceName := "p", resourceID := 1,
            entries := [{ operation := Operation.delete, clientID := [], timestamp := 2 }] })
    { resourceName := "p", resourceID := 1,
      entries := [{ operation := Operation.update, clientID := [], timestamp := 2 }] }).1).mpr
    ⟨by decide, ?_⟩
  intro e he
  cases he
  decide

theorem sharedWithBytes_eq (sharedWith : List SharedSecret) :
    ∀ init : List Nat,
      sharedWithBytes sharedWith init =
        init ++ (sharedWith.map (fun sw => sw.id ++ sw.secret)).flatten := by
  induction sharedWith with
  | nil => intro init; simp [sharedWithBytes]
  | cons sw rest ih =>
    intro init
    simp only [sharedWithBytes, List.foldl_cons] at *
    rw [ih (init ++ sw.id ++ sw.secret)]
    simp [List.append_assoc]

theorem ownerBytes_eq (owners : List idSecret) :
    ∀ init : List Nat,
      ownerBytes owners init =
        init ++ (owners.map (fun pair => pair.id ++ pair.secret)).flatten := by
  induction owners with
  | nil => intro init; simp [ownerBytes]
  | cons pair rest ih =>
    intro init
    simp only [ownerBytes, List.foldl_cons] at *
    rw [ih (init ++ pair.id ++ pair.secret)]
    simp [List.append_assoc]

theorem readOwnerRecords_roundtrip (owners : List idSecret)
    (hlen : ∀ p ∈ owners, p.id.length = 20 ∧ p.secret.length = 256) :
    ∀ rest : List Nat,
      readOwnerRecords owners.length
        ((owners.map (fun pair => pair.id ++ pair.secret)).flatten ++ rest) =
        some (owners, rest) := by
  induction owners with
  | nil => intro rest; simp [readOwnerRecords]
  | cons p os ih =>
    intro rest
    obtain ⟨h20, h256⟩ := hlen p (List.mem_cons_self p os)
    have hos : ∀ q ∈ os, q.id.length = 20 ∧ q.secret.length = 256 :=
      fun q hq => hlen q (List.mem_cons_of_mem p hq)
    simp only [List.map_cons, List.flatten_cons, List.length_cons]
    have hshape :
        (p.id ++ p.secret ++ (os.map (fun pair => pair.id ++ pair.secret)).flatten) ++ rest =
          p.id ++ (p.secret ++ ((os.map (fun pair => pair.id ++ pair.secret)).flatten ++ rest)) := by
      simp [List.append_assoc]
    rw [hshape]
    unfold readOwnerRecords
    have hl1 : 20 ≤ (p.id ++ (p.secret ++ ((os.map (fun pair => pair.id ++ pair.secret)).flatten ++ rest))).length := by
      simp [h20]
    rw [if_pos hl1]
    simp only [List.take_left' h20, List.drop_left' h20]
    have hl2 : 256 ≤ (p.secret ++ ((os.map (fun pair => pair.id ++ pair.secret)).flatten ++ rest)).length := by
      simp [h256]
    rw [if_pos hl2]
    simp only [List.take_left' h256, List.drop_left' h256]
    rw [ih hos rest]

theorem authScan_eq_getLast (owners : List idSecret) (fromId : List Nat) :
    authScan owners fromId =
      ((owners.filter (fun pair => pair.id = fromId)).map idSecret.secret).getLast? := by
  induction owners using List.reverseRecOn with
  | nil => rfl
  | append_singleton os p ih =>
    by_cases h : p.id = fromId
    · simp only [authScan, List.foldl_append, List.foldl_cons, List.foldl_nil] at *
      rw [if_pos h, List.filter_append]
      have hp : List.filter (fun pair => decide (pair.id = fromId)) [p] = [p] := by
        simp [h]
      rw [hp, List.map_append]
      simp
    · simp only [authScan, List.foldl_append, List.foldl_cons, List.foldl_nil] at *
      rw [if_neg h, List.filter_append]
      have hp : List.filter (fun pair => decide (pair.id = fromId)) [p] = [] := by
        simp [h]
      rw [hp, List.append_nil]
      exact ih

theorem authScan_none_of_no_match (owners : List idSecret) (fromId : List Nat)
    (h : ∀ p ∈ owners, p.id ≠ fromId) :
    authScan owners fromId = none := by
  rw [authScan_eq_getLast]
  have : owners.filter (fun pair => pair.id = fromId) = [] := by
    rw [List.filter_eq_nil_iff]
    intro a ha
    simp [h a ha]
  rw [this]
  rfl

theorem updatedEnvelopeHeader_shape (owners : List idSecret)
    (sharedWith : List SharedSecret) :
    updatedEnvelopeHeader owners sharedWith =
      (owners.length + sharedWith.length) % 256 ::
        ((owners.map (fun pair => pair.id ++ pair.secret)).flatten ++
          (sharedWith.map (fun sw => sw.id ++ sw.secret)).flatten) := by
  unfold updatedEnvelopeHeader
  rw [sharedWithBytes_eq, ownerBytes_eq]
  simp

theorem newEnvelopeHeader_shape (fromId fileSecret : List Nat)
    (sharedWith : List SharedSecret) :
    newEnvelopeHeader fromId fileSecret sharedWith =
      (1 + sharedWith.length) % 256 ::
        (fromId ++ fileSecret ++ (sharedWith.map (fun sw => sw.id ++ sw.secret)).flatten) := by
  unfold newEnvelopeHeader
  rw [sharedWithBytes_eq]
  simp

/-- C2 evaluation: the sync-loop client `PostFile` uploads the raw file bytes.
At the failing input (a two-byte file), the request data is the file content
itself, the header secret is empty, and the data cannot be of the
spec-mandated shape `iv ++ ciphertext` with a 16-byte (one AES block) IV. -/
theorem c2_postfile_uploads_raw_bytes :
    (clientPostFileRequest (List.replicate 20 1) "a.txt" 0 [104, 105] 9 0).data = [104, 105]
  ∧ (clientPostFileRequest (List.replicate 20 1) "a.txt" 0 [104, 105] 9 0).header.secret = []
  ∧ ¬ ∃ iv ciphertext : List Nat,
      (clientPostFileRequest (List.replicate 20 1) "a.txt" 0 [104, 105] 9 0).data =
        iv ++ ciphertext ∧ iv.length = 16 := by
  refine ⟨rfl, rfl, ?_⟩
  rintro ⟨iv, ciphertext, hdata, hiv⟩
  have : ([104, 105] : List Nat).length = (iv ++ ciphertext).length := by rw [← hdata]; rfl
  simp [hiv] at this
  omega

set_option maxRecDepth 100000

/-- C3 counterexample: `GetFileHandler` answers a well-formed, authorized
request with `Success`, yet its response clock is 0 rather than
`max(server_clock, request.clock) + 1 = 6`, and the server clock is left at 5:
the handler never updates the Lamport clock. -/
theorem c3_counterexample :
    ((getFileHandler
        { clock := 5, store := updateStore (fun _ => none) 0 (1 :: (List.replicate 20 1 ++ List.replicate 256 2)) }
        { header := { Header.zero with key := 0, fromId := List.replicate 20 1 }, data := [] }).2.status
      = Status.success)
  ∧ ((getFileHandler
        { clock := 5, store := updateStore (fun _ => none) 0 (1 :: (List.replicate 20 1 ++ List.replicate 256 2)) }
        { header := { Header.zero with key := 0, fromId := List.replicate 20 1 }, data := [] }).2.clock
      = 0)
  ∧ (0 : Nat) ≠ max 5 0 + 1
  ∧ ((getFileHandler
        { clock := 5, store := updateStore (fun _ => none) 0 (1 :: (List.replicate 20 1 ++ List.replicate 256 2)) }
        { header := { Header.zero with key := 0, fromId := List.replicate 20 1 }, data := [] }).1.clock
      = 5) := by
  refine ⟨?_, ?_, by decide, rfl⟩ <;> decide

/-- C3 amended: `PostFileHandler`, `GetPublicKeyHandler` and
`PostPublicKeyHandler` update the Lamport clock on every request, and
`DeleteFileHandler` updates it once the envelope owner table has been read;
each of these four handlers' Success response carries
`max(server_clock, request.clock) + 1`. `GetFileHandler` neither updates the
clock nor carries one: its responses always carry clock 0 and leave the
server state untouched. -/
theorem c3_amended_clock_discipline (s : ServerState) (r : Request) :
    ((postFileHandler s r).1.clock = max s.clock r.header.clock + 1
      ∧ ((postFileHandler s r).2.status = Status.success →
          (postFileHandler s r).2.clock = max s.clock r.header.clock + 1))
  ∧ ((getPublicKeyHandler s r).1.clock = max s.clock r.header.clock + 1
      ∧ ((getPublicKeyHandler s r).2.status = Status.success →
          (getPublicKeyHandler s r).2.clock = max s.clock r.header.clock + 1))
  ∧ ((postPublicKeyHandler s r).1.clock = max s.clock r.header.clock + 1
      ∧ (postPublicKeyHandler s r).2.clock = max s.clock r.header.clock + 1)
  ∧ ((deleteFileHandler s r).2.status = Status.success →
      ((deleteFileHandler s r).1.clock = max s.clock r.header.clock + 1
        ∧ (deleteFileHandler s r).2.clock = max s.clock r.header.clock + 1))
  ∧ ((getFileHandler s r).1 = s ∧ (getFileHandler s r).2.clock = 0) := by
  refine ⟨⟨?_, ?_⟩, ⟨?_, ?_⟩, ⟨rfl, rfl⟩, ?_, rfl, ?_⟩
  · unfold postFileHandler incrementClock
    split
    · rfl
    · split
      · rfl
      · split <;> rfl
  · unfold postFileHandler incrementClock
    split
    · intro _; rfl
    · split
      · intro h; exact Status.noConfusion h
      · split
        · intro h; exact Status.noConfusion h
        · intro _; rfl
  · unfold getPublicKeyHandler incrementClock
    split <;> rfl
  · unfold getPublicKeyHandler incrementClock
    split
    · intro h; exact Status.noConfusion h
    · intro _; rfl
  · unfold deleteFileHandler incrementClock
    split
    · intro h; exact Status.noConfusion h
    · split
      · intro h; exact Status.noConfusion h
      · split
        · intro h; exact Status.noConfusion h
        · intro _; exact ⟨rfl, rfl⟩
  · unfold getFileHandler
    split
    · rfl
    · split
      · rfl
      · split <;> rfl

/-- Witness for C3 amended at a concrete input: a `PostFileHandler` create
and a `PostPublicKeyHandler` write on server clock 5 with request clock 2
both answer with clock `max 5 2 + 1 = 6`. -/
theorem c3_witness :
    (postFileHandler { clock := 5, store := fun _ => none }
        { header := { Header.zero with clock := 2 }, data := [] }).2.clock = max 5 2 + 1
  ∧ (postPublicKeyHandler { clock := 5, store := fun _ => none }
      { header := { Header.zero with clock := 2 }, data := [] }).2.clock = max 5 2 + 1 := by
  have h := c3_amended_clock_discipline { clock := 5, store := fun _ => none }
    { header := { Header.zero with clock := 2 }, data := [] }
  exact ⟨h.1.2 rfl, h.2.2.1.2⟩

/-- C4 counterexample: an envelope whose owner table holds two records with
the same id but different wrapped keys. `GetFileHandler` succeeds but returns
the wrapped key of the SECOND (last) matching record, not the first: the
scan has no break and overwrites the response secret on every match. -/
theorem c4_counterexample :
    ((getFileHandler
        { clock := 0,
          store := updateStore (fun _ => none) 0
            (2 :: (List.replicate 20 1 ++ List.replicate 256 7 ++
                   (List.replicate 20 1 ++ List.replicate 256 9))) }
        { header := { Header.zero with key := 0, fromId := List.replicate 20 1 },
          data := [] }).2.secret = List.replicate 256 9)
  ∧ List.replicate 256 9 ≠ List.replicate 256 7
  ∧ ((getFileHandler
        { clock := 0,
          store := updateStore (fun _ => none) 0
            (2 :: (List.replicate 20 1 ++ List.replicate 256 7 ++
                   (List.replicate 20 1 ++ List.replicate 256 9))) }
        { header := { Header.zero with key := 0, fromId := List.replicate 20 1 },
          data := [] }).2.status = Status.success) := by
  refine ⟨?_, by decide, ?_⟩ <;> decide

/-- C4 amended: the authorization scan yields the wrapped key of the LAST
matching owner-table record (the filter of matching records, last element);
in particular, when duplicate ids occur, `GetFileHandler` returns the
wrapped key of the latest matching entry, with a Success status. -/
theorem c4_auth_scan_last_match (s : ServerState) (r : Request)
    (blob : List Nat) (owners : List idSecret) (data : List Nat)
    (hstore : s.store r.header.key = some blob)
    (hparse : parseEnvelope blob = some (owners, data)) :
    authScan owners r.header.fromId =
        ((owners.filter (fun pair => pair.id = r.header.fromId)).map idSecret.secret).getLast?
  ∧ ∀ sec : List Nat,
      ((owners.filter (fun pair => pair.id = r.header.fromId)).map idSecret.secret).getLast? =
          some sec →
        (getFileHandler s r).2.secret = sec ∧ (getFileHandler s r).2.status = Status.success := by
  refine ⟨authScan_eq_getLast owners r.header.fromId, ?_⟩
  intro sec hsec
  have hauth : authScan owners r.header.fromId = some sec :=
    (authScan_eq_getLast owners r.header.fromId).trans hsec
  unfold getFileHandler
  rw [hstore]
  simp [hparse, hauth]

/-- Witness for C4 amended at a concrete input: a two-record owner table
with distinct ids; the requester matches the second record and gets its
wrapped key back. -/
theorem c4_witness :
    (getFileHandler
        { clock := 0,
          store := updateStore (fun _ => none) 0
            (2 :: (List.replicate 20 1 ++ List.replicate 256 7 ++
                   (List.replicate 20 2 ++ List.replicate 256 8))) }
        { header := { Header.zero with key := 0, fromId := List.replicate 20 2 },
          data := [] }).2.secret = List.replicate 256 8 := by
  have h := (c4_auth_scan_last_match
    { clock := 0,
      store := updateStore (fun _ => none) 0
        (2 :: (List.replicate 20 1 ++ List.replicate 256 7 ++
               (List.replicate 20 2 ++ List.replicate 256 8))) }
    { header := { Header.zero with key := 0, fromId := List.replicate 20 2 },
      data := [] }
    (2 :: (List.replicate 20 1 ++ List.replicate 256 7 ++
           (List.replicate 20 2 ++ List.replicate 256 8)))
    [idSecret.mk (List.replicate 20 1) (List.replicate 256 7),
     idSecret.mk (List.replicate 20 2) (List.replicate 256 8)]
    []
    (by decide) (by decide)).2 (List.replicate 256 8) (by decide)
  exact h.1

/-- C5: a `PostFile` on a key with no existing envelope stores exactly the
envelope whose owner-count byte is `1 + |shared_with|`, whose owner table is
the record `(from, secret)` followed by the shared-with records in order, and
whose ciphertext is the request data (within the spec's envelope bounds
`1 ≤ N ≤ 255` and record widths 20 and 256). -/
theorem c5_post_creates_envelope (s : ServerState) (r : Request)
    (habsent : s.store r.header.key = none)
    (hfrom : r.header.fromId.length = 20)
    (hsec : r.header.secret.length = 256)
    (hsw : ∀ x ∈ r.header.sharedWith, x.id.length = 20 ∧ x.secret.length = 256)
    (hcount : 1 + r.header.sharedWith.length ≤ 255) :
    (postFileHandler s r).1.store r.header.key =
        some (newEnvelopeHeader r.header.fromId r.header.secret r.header.sharedWith ++ r.data)
  ∧ (newEnvelopeHeader r.header.fromId r.header.secret r.header.sharedWith).head? =
      some (1 + r.header.sharedWith.length)
  ∧ parseEnvelope
        (newEnvelopeHeader r.header.fromId r.header.secret r.header.sharedWith ++ r.data) =
      some (idSecret.mk r.header.fromId r.header.secret ::
              r.header.sharedWith.map (fun sw => idSecret.mk sw.id sw.secret),
            r.data)
  ∧ (postFileHandler s r).2.status = Status.success := by
  have hmod : (1 + r.header.sharedWith.length) % 256 = 1 + r.header.sharedWith.length :=
    Nat.mod_eq_of_lt (by omega)
  refine ⟨?_, ?_, ?_, ?_⟩
  · simp only [postFileHandler, habsent]
    simp [updateStore]
  · rw [newEnvelopeHeader_shape]
    simp [hmod]
  · rw [newEnvelopeHeader_shape]
    have hconv :
        ((idSecret.mk r.header.fromId r.header.secret ::
            r.header.sharedWith.map (fun sw => idSecret.mk sw.id sw.secret)).map
              (fun pair => pair.id ++ pair.secret)).flatten =
          r.header.fromId ++ r.header.secret ++
            (r.header.sharedWith.map (fun sw => sw.id ++ sw.secret)).flatten := by
      have hcomp : (fun pair : idSecret => pair.id ++ pair.secret) ∘
          (fun sw : SharedSecret => idSecret.mk sw.id sw.secret) =
          fun sw : SharedSecret => sw.id ++ sw.secret := rfl
      simp [List.map_map, hcomp, List.append_assoc]
    have hlen' : ∀ p ∈ (idSecret.mk r.header.fromId r.header.secret ::
        r.header.sharedWith.map (fun sw => idSecret.mk sw.id sw.secret)),
        p.id.length = 20 ∧ p.secret.length = 256 := by
      intro p hp
      rcases List.mem_cons.mp hp with h | h
      · subst h; exact ⟨hfrom, hsec⟩
      · obtain ⟨sw, hsw', rfl⟩ := List.mem_map.mp h
        exact hsw sw hsw'
    have hrt := readOwnerRecords_roundtrip
      (idSecret.mk r.header.fromId r.header.secret ::
        r.header.sharedWith.map (fun sw => idSecret.mk sw.id sw.secret)) hlen' r.data
    rw [hconv] at hrt
    have hlen'' : (idSecret.mk r.header.fromId r.header.secret ::
        r.header.sharedWith.map (fun sw => idSecret.mk sw.id sw.secret)).length =
        1 + r.header.sharedWith.length := by
      simp [Nat.add_comm]
    rw [hlen''] at hrt
    show readOwnerRecords ((1 + r.header.sharedWith.length) % 256)
        ((r.header.fromId ++ r.header.secret ++
          (r.header.sharedWith.map (fun sw => sw.id ++ sw.secret)).flatten) ++ r.data) =
      some (idSecret.mk r.header.fromId r.header.secret ::
              r.header.sharedWith.map (fun sw => idSecret.mk sw.id sw.secret), r.data)
    rw [hmod]
    exact hrt
  · simp only [postFileHandler, habsent]

/-- Witness for C5 at a concrete input: one shared-with record; the stored
blob is the new envelope header followed by the data, and the post succeeds. -/
theorem c5_witness :
    (postFileHandler { clock := 0, store := fun _ => none }
        { header := { Header.zero with
                        key := 3, fromId := List.replicate 20 1,
                        secret := List.replicate 256 2,
                        sharedWith := [SharedSecret.mk (List.replicate 20 3) (List.replicate 256 4)] },
          data := [9, 9] }).1.store 3 =
      some (newEnvelopeHeader (List.replicate 20 1) (List.replicate 256 2)
              [SharedSecret.mk (List.replicate 20 3) (List.replicate 256 4)] ++ [9, 9])
  ∧ (postFileHandler { clock := 0, store := fun _ => none }
        { header := { Header.zero with
                        key := 3, fromId := List.replicate 20 1,
                        secret := List.replicate 256 2,
                        sharedWith := [SharedSecret.mk (List.replicate 20 3) (List.replicate 256 4)] },
          data := [9, 9] }).2.status = Status.success := by
  have h := c5_post_creates_envelope { clock := 0, store := fun _ => none }
    { header := { Header.zero with
                    key := 3, fromId := List.replicate 20 1,
                    secret := List.replicate 256 2,
                    sharedWith := [SharedSecret.mk (List.replicate 20 3) (List.replicate 256 4)] },
      data := [9, 9] }
    rfl (by decide) (by decide) (by decide) (by decide)
  exact ⟨h.1, h.2.2.2⟩

/-- C6: a `PostFile` on an existing, well-formed envelope whose owner table
does not contain the requester's id returns `Error` and performs no write:
the blob store is unchanged. -/
theorem c6_post_nonowner_no_write (s : ServerState) (r : Request)
    (blob : List Nat) (owners : List idSecret) (data : List Nat)
    (hstore : s.store r.header.key = some blob)
    (hparse : parseEnvelope blob = some (owners, data))
    (hno : ∀ p ∈ owners, p.id ≠ r.header.fromId) :
    (postFileHandler s r).2.status = Status.error
  ∧ (postFileHandler s r).1.store = s.store := by
  have hnone := authScan_none_of_no_match owners r.header.fromId hno
  unfold postFileHandler
  rw [hstore]
  simp [hparse, hnone, errorResponse]

/-- Witness for C6 at a concrete input: a single-owner envelope and a
requester with a different id; the post is rejected and the store function is
untouched. -/
theorem c6_witness :
    (postFileHandler
        { clock := 0,
          store := updateStore (fun _ => none) 0
            (1 :: (List.replicate 20 1 ++ List.replicate 256 2)) }
        { header := { Header.zero with key := 0, fromId := List.replicate 20 9 },
          data := [5] }).2.status = Status.error
  ∧ (postFileHandler
        { clock := 0,
          store := updateStore (fun _ => none) 0
            (1 :: (List.replicate 20 1 ++ List.replicate 256 2)) }
        { header := { Header.zero with key := 0, fromId := List.replicate 20 9 },
          data := [5] }).1.store =
      updateStore (fun _ => none) 0 (1 :: (List.replicate 20 1 ++ List.replicate 256 2)) := by
  have h := c6_post_nonowner_no_write
    { clock := 0,
      store := updateStore (fun _ => none) 0
        (1 :: (List.replicate 20 1 ++ List.replicate 256 2)) }
    { header := { Header.zero with key := 0, fromId := List.replicate 20 9 },
      data := [5] }
    (1 :: (List.replicate 20 1 ++ List.replicate 256 2))
    [idSecret.mk (List.replicate 20 1) (List.replicate 256 2)]
    []
    rfl (by decide) (by decide)
  exact ⟨h.1, h.2⟩

/-- C7 counterexample: an existing single-owner envelope updated by its owner
with 255 shared-with records. `|existing| + |shared_with| = 256`, and the
stored owner-count byte is `256 % 256 = 0`, not the sum: the code does not
keep the count within the single-byte maximum of 255. -/
theorem c7_counterexample :
    (((postFileHandler
        { clock := 0,
          store := updateStore (fun _ => none) 0
            (1 :: (List.replicate 20 3 ++ List.replicate 256 4)) }
        { header := { Header.zero with
                        key := 0, fromId := List.replicate 20 3,
                        sharedWith := List.replicate 255 (SharedSecret.mk (List.replicate 20 0) []) },
          data := [] }).1.store 0).map List.head?) = some (some 0)
  ∧ (1 : Nat) + 255 ≠ 0 := by
  refine ⟨?_, by decide⟩
  have hparse : parseEnvelope (1 :: (List.replicate 20 3 ++ List.replicate 256 4)) =
      some ([idSecret.mk (List.replicate 20 3) (List.replicate 256 4)], []) := by decide
  have hauth : authScan [idSecret.mk (List.replicate 20 3) (List.replicate 256 4)]
      (List.replicate 20 3) = some (List.replicate 256 4) := by decide
  have hs : (postFileHandler
      { clock := 0,
        store := updateStore (fun _ => none) 0
          (1 :: (List.replicate 20 3 ++ List.replicate 256 4)) }
      { header := { Header.zero with
                      key := 0, fromId := List.replicate 20 3,
                      sharedWith := List.replicate 255 (SharedSecret.mk (List.replicate 20 0) []) },
        data := [] }).1.store 0 =
      some (updatedEnvelopeHeader [idSecret.mk (List.replicate 20 3) (List.replicate 256 4)]
              (List.replicate 255 (SharedSecret.mk (List.replicate 20 0) [])) ++ []) := by
    unfold postFileHandler
    simp only [show (updateStore (fun _ => none) 0
        (1 :: (List.replicate 20 3 ++ List.replicate 256 4))) 0 =
        some (1 :: (List.replicate 20 3 ++ List.replicate 256 4)) from rfl, hparse, hauth]
    simp [updateStore]
  rw [hs]
  rw [List.append_nil, updatedEnvelopeHeader_shape]
  simp

/-- C7 amended: a `PostFile` update of an existing envelope by an owner
stores an owner-count byte equal to `(|existing| + |shared_with|) mod 256`;
the byte equals the plain sum whenever the sum is at most 255, but the code
does not enforce that bound, so larger sums wrap around. -/
theorem c7_post_update_count_mod (s : ServerState) (r : Request)
    (blob : List Nat) (owners : List idSecret) (data : List Nat) (sec : List Nat)
    (hstore : s.store r.header.key = some blob)
    (hparse : parseEnvelope blob = some (owners, data))
    (hauth : authScan owners r.header.fromId = some sec) :
    (postFileHandler s r).1.store r.header.key =
        some (updatedEnvelopeHeader owners r.header.sharedWith ++ r.data)
  ∧ (updatedEnvelopeHeader owners r.header.sharedWith).head? =
      some ((owners.length + r.header.sharedWith.length) % 256)
  ∧ (owners.length + r.header.sharedWith.length ≤ 255 →
      (updatedEnvelopeHeader owners r.header.sharedWith).head? =
        some (owners.length + r.header.sharedWith.length)) := by
  refine ⟨?_, ?_, ?_⟩
  · unfold postFileHandler
    rw [hstore]
    simp [hparse, hauth, updateStore]
  · rw [updatedEnvelopeHeader_shape]
    rfl
  · intro hle
    rw [updatedEnvelopeHeader_shape]
    simp [Nat.mod_eq_of_lt (by omega : owners.length + r.header.sharedWith.length < 256)]

/-- Witness for C7 amended at a concrete input: one existing owner plus one
shared-with record; the stored count byte is `2 = 1 + 1` and the stored blob
is the rebuilt header followed by the request data. -/
theorem c7_witness :
    (updatedEnvelopeHeader [idSecret.mk (List.replicate 20 5) (List.replicate 256 6)]
        [SharedSecret.mk (List.replicate 20 7) (List.replicate 256 8)]).head? = some (1 + 1)
  ∧ (postFileHandler
      { clock := 0,
        store := updateStore (fun _ => none) 0
          (1 :: (List.replicate 20 5 ++ List.replicate 256 6)) }
      { header := { Header.zero with
                      key := 0, fromId := List.replicate 20 5,
                      sharedWith := [SharedSecret.mk (List.replicate 20 7) (List.replicate 256 8)] },
        data := [1] }).1.store 0 =
      some (updatedEnvelopeHeader [idSecret.mk (List.replicate 20 5) (List.replicate 256 6)]
              [SharedSecret.mk (List.replicate 20 7) (List.replicate 256 8)] ++ [1]) := by
  have h := c7_post_update_count_mod
    { clock := 0,
      store := updateStore (fun _ => none) 0
        (1 :: (List.replicate 20 5 ++ List.replicate 256 6)) }
    { header := { Header.zero with
                    key := 0, fromId := List.replicate 20 5,
                    sharedWith := [SharedSecret.mk (List.replicate 20 7) (List.replicate 256 8)] },
      data := [1] }
    (1 :: (List.replicate 20 5 ++ List.replicate 256 6))
    [idSecret.mk (List.replicate 20 5) (List.replicate 256 6)]
    []
    (List.replicate 256 6)
    rfl (by decide) (by decide)
  exact ⟨h.2.2 (by decide), h.1⟩

/-- C8: a stored envelope whose owner-count byte is 0 parses successfully
(zero owner records, remainder is ciphertext), but `GetFileHandler` returns
`Error` for every requester: nobody is authorized. -/
theorem c8_zero_owner_envelope (s : ServerState) (r : Request) (data : List Nat)
    (hstore : s.store r.header.key = some (0 :: data)) :
    parseEnvelope (0 :: data) = some ([], data)
  ∧ (getFileHandler s r).2 = errorResponse := by
  refine ⟨rfl, ?_⟩
  unfold getFileHandler
  rw [hstore]
  rfl

/-- Witness for C8 at a concrete input: a zero-owner envelope with one
ciphertext byte; the get is rejected. -/
theorem c8_witness :
    parseEnvelope (0 :: [7]) = some ([], [7])
  ∧ (getFileHandler
      { clock := 0, store := updateStore (fun _ => none) 5 (0 :: [7]) }
      { header := { Header.zero with key := 5, fromId := List.replicate 20 1 },
        data := [] }).2 = errorResponse :=
  c8_zero_owner_envelope
    { clock := 0, store := updateStore (fun _ => none) 5 (0 :: [7]) }
    { header := { Header.zero with key := 5, fromId := List.replicate 20 1 },
      data := [] }
    [7] rfl

/-- C10: a successful `PostFile` over an existing envelope returns, in the
response header secret, the wrapped key already stored for the requesting id
in the prior owner table — the last matching record when the id occurs more
than once. -/
theorem c10_post_returns_stored_wrapped_key (s : ServerState) (r : Request)
    (blob : List Nat) (owners : List idSecret) (data : List Nat) (sec : List Nat)
    (hstore : s.store r.header.key = some blob)
    (hparse : parseEnvelope blob = some (owners, data))
    (hlast : ((owners.filter (fun pair => pair.id = r.header.fromId)).map idSecret.secret).getLast? =
      some sec) :
    (postFileHandler s r).2.secret = sec
  ∧ (postFileHandler s r).2.status = Status.success := by
  have hauth : authScan owners r.header.fromId = some sec :=
    (authScan_eq_getLast owners r.header.fromId).trans hlast
  unfold postFileHandler
  rw [hstore]
  simp [hparse, hauth]

/-- Witness for C10 at a concrete input: the owner table holds the same id
twice with different wrapped keys; the posting owner gets the LAST stored
wrapped key back and the post succeeds. -/
theorem c10_witness :
    (postFileHandler
        { clock := 0,
          store := updateStore (fun _ => none) 0
            (2 :: (List.replicate 20 5 ++ List.replicate 256 6 ++
                   (List.replicate 20 5 ++ List.replicate 256 8))) }
        { header := { Header.zero with key := 0, fromId := List.replicate 20 5 },
          data := [4] }).2.secret = List.replicate 256 8
  ∧ (postFileHandler
      { clock := 0,
        store := updateStore (fun _ => none) 0
          (2 :: (List.replicate 20 5 ++ List.replicate 256 6 ++
                 (List.replicate 20 5 ++ List.replicate 256 8))) }
      { header := { Header.zero with key := 0, fromId := List.replicate 20 5 },
        data := [4] }).2.status = Status.success := by
  have h := c10_post_returns_stored_wrapped_key
    { clock := 0,
      store := updateStore (fun _ => none) 0
        (2 :: (List.replicate 20 5 ++ List.replicate 256 6 ++
               (List.replicate 20 5 ++ List.replicate 256 8))) }
    { header := { Header.zero with key := 0, fromId := List.replicate 20 5 },
      data := [4] }
    (2 :: (List.replicate 20 5 ++ List.replicate 256 6 ++
           (List.replicate 20 5 ++ List.replicate 256 8)))
    [idSecret.mk (List.replicate 20 5) (List.replicate 256 6),
     idSecret.mk (List.replicate 20 5) (List.replicate 256 8)]
    []
    (List.replicate 256 8)
    rfl (by decide) (by decide)
  exact h
